import Mathlib

/-!
Shallow embedding of the Prague / L4S congestion controller of this
repository (`internal/congestion/prague_sender.go`), together with the
configuration-validation example code and a model of the ECN-mode selector
described by the specification.

Modelling conventions:
* Go `protocol.ByteCount` and `protocol.PacketNumber` (both `int64`) are
  modelled as `Int`; the behaviours under study never reach the `2^63`
  overflow region, so wrap-around is not modelled.
* Go `float64` arithmetic is modelled exactly over `ℚ`.  Every concrete
  computation settled below involves only dyadic constants (1/2, 1/16) and
  small integers, for which `float64` arithmetic is exact as well.
* Go's float-to-integer conversion (`protocol.ByteCount(x)`) truncates
  toward zero; `goTrunc` models it.
* The pacer, clock and RTT statistics are infrastructure that none of the
  embedded operations read for any property below; they are omitted from
  the state, and the `eventTime` argument of `OnPacketAcked` (unused by the
  source function) is dropped.
-/

namespace PragueCC

/-- Go: `protocol.InvalidPacketNumber` (= -1). -/
def InvalidPacketNumber : Int := -1

/-- Go: `protocol.MaxByteCount` (= 2^62 - 1), the initial slow-start threshold. -/
def MaxByteCount : Int := 2 ^ 62 - 1

/-- Modelled from the spec: `protocol.DefaultInitialMaxStreamData` belongs to
the surrounding quic-go protocol package, which is not among the source files;
only its use in `newPragueSender` is.  The upstream constant is 512 KiB.
No theorem below depends on the concrete value. -/
def DefaultInitialMaxStreamData : Int := 524288

/-- Go constant `pragueAlphaGain = 1.0 / 16.0` (EWMA gain for alpha). -/
def pragueAlphaGain : ℚ := 1 / 16

/-- Go constant `pragueMinCwnd = 2` (minimum congestion window in packets). -/
def pragueMinCwnd : Int := 2

/-- Go constant `pragueInitialCwnd = 32` (initial congestion window in packets). -/
def pragueInitialCwnd : Int := 32

/-- Go constant `pragueBeta = 0.5` (classic loss response factor). -/
def pragueBeta : ℚ := 1 / 2

/-- Go's float-to-integer conversion truncates toward zero. -/
def goTrunc (x : ℚ) : Int := if 0 ≤ x then ⌊x⌋ else ⌈x⌉

/-- The state of `pragueSender` (`prague_sender.go`).  The pacer, clock and
RTT-statistics fields are omitted (see the module comment); all remaining Go
fields are kept, with `float64` fields as `ℚ` and byte counts / packet
numbers as `Int`. -/
structure PragueSender where
  alpha : ℚ
  alphaGain : ℚ
  congestionWindow : Int
  slowStartThreshold : Int
  cwndCarry : ℚ
  largestSentPacketNumber : Int
  largestAckedPacketNumber : Int
  largestSentAtLastCutback : Int
  ecnMarkedBytes : Int
  totalAckedBytes : Int
  l4sEnabled : Bool
  inSlowStart : Bool
  inRecovery : Bool
  lastCutbackExitedSlowstart : Bool
  maxDatagramSize : Int
  initialCongestionWindow : Int
  initialMaxCongestionWindow : Int
deriving DecidableEq

/-- `newPragueSender` (`prague_sender.go`): fields not assigned in the Go
struct literal take Go's zero values. -/
def newPragueSender (initialMaxDatagramSize : Int) (l4sEnabled : Bool) : PragueSender :=
  { alpha := 0
    alphaGain := pragueAlphaGain
    congestionWindow := pragueInitialCwnd * initialMaxDatagramSize
    slowStartThreshold := MaxByteCount
    cwndCarry := 0
    largestSentPacketNumber := 0
    largestAckedPacketNumber := 0
    largestSentAtLastCutback := 0
    ecnMarkedBytes := 0
    totalAckedBytes := 0
    l4sEnabled := l4sEnabled
    inSlowStart := true
    inRecovery := false
    lastCutbackExitedSlowstart := false
    maxDatagramSize := initialMaxDatagramSize
    initialCongestionWindow := pragueInitialCwnd * initialMaxDatagramSize
    initialMaxCongestionWindow := DefaultInitialMaxStreamData }

/-- `minCongestionWindow`: `pragueMinCwnd * maxDatagramSize`. -/
def PragueSender.minCongestionWindow (p : PragueSender) : Int :=
  pragueMinCwnd * p.maxDatagramSize

/-- `MaybeExitSlowStart`: exit slow start when ECN marks were seen
(`alpha > 0`) or the slow-start threshold is reached. -/
def MaybeExitSlowStart (p : PragueSender) : PragueSender :=
  if p.inSlowStart ∧ (0 < p.alpha ∨ p.slowStartThreshold ≤ p.congestionWindow) then
    { p with inSlowStart := false }
  else p

/-- `OnPacketSent` (pacer accounting omitted): records `largestSentPacketNumber`
for retransmittable packets. -/
def OnPacketSent (p : PragueSender) (bytesInFlight packetNumber bytes : Int)
    (isRetransmittable : Bool) : PragueSender :=
  if ¬isRetransmittable then p
  else if p.largestSentPacketNumber < packetNumber then
    { p with largestSentPacketNumber := packetNumber }
  else p

/-- `pragueAdditiveIncrease`: no growth at or above `initialMaxCongestionWindow`;
otherwise `cwnd += maxDatagramSize * unmarkedBytes / cwnd` where in L4S mode
with `alpha > 0` only the unmarked fraction of the acked bytes counts. -/
def pragueAdditiveIncrease (p : PragueSender) (ackedBytes : Int) : PragueSender :=
  if p.initialMaxCongestionWindow ≤ p.congestionWindow then p
  else
    let unmarkedBytes : Int :=
      if p.l4sEnabled ∧ 0 < p.alpha then goTrunc ((ackedBytes : ℚ) * (1 - p.alpha))
      else ackedBytes
    let increase : ℚ :=
      (p.maxDatagramSize : ℚ) * (unmarkedBytes : ℚ) / (p.congestionWindow : ℚ)
    { p with congestionWindow := p.congestionWindow + goTrunc increase }

/-- `OnPacketAcked` (the unused `eventTime` argument is dropped):
records the largest acked packet, accumulates `totalAckedBytes`, holds the
window during recovery for packets at or below the last cutback, and
otherwise grows the window by the slow-start or additive-increase rule. -/
def OnPacketAcked (p : PragueSender) (number ackedBytes priorInFlight : Int) :
    PragueSender :=
  let p1 :=
    if p.largestAckedPacketNumber < number then
      { p with largestAckedPacketNumber := number }
    else p
  let p2 := { p1 with totalAckedBytes := p1.totalAckedBytes + ackedBytes }
  if p2.inRecovery ∧ number ≤ p2.largestSentAtLastCutback then p2
  else if p2.inSlowStart then
    MaybeExitSlowStart { p2 with congestionWindow := p2.congestionWindow + ackedBytes }
  else
    pragueAdditiveIncrease p2 ackedBytes

/-- `OnCongestionEvent`: classic loss response, deduplicated against
`largestSentAtLastCutback`. -/
def OnCongestionEvent (p : PragueSender) (number lostBytes priorInFlight : Int) :
    PragueSender :=
  if number ≤ p.largestSentAtLastCutback then p
  else
    let ssthresh : Int := goTrunc ((p.congestionWindow : ℚ) * pragueBeta)
    { p with
      lastCutbackExitedSlowstart := p.inSlowStart
      inSlowStart := false
      inRecovery := true
      largestSentAtLastCutback := p.largestSentPacketNumber
      slowStartThreshold := ssthresh
      congestionWindow :=
        goTrunc (max ((p.minCongestionWindow : ℚ)) ((ssthresh : ℚ))) }

/-- `OnRetransmissionTimeout`: collapse to the minimum window.  Go's `int64`
division truncates toward zero, hence `Int.tdiv`. -/
def OnRetransmissionTimeout (p : PragueSender) (packetsRetransmitted : Bool) :
    PragueSender :=
  { p with
    largestSentAtLastCutback := InvalidPacketNumber
    inSlowStart := false
    slowStartThreshold := p.congestionWindow.tdiv 2
    congestionWindow := p.minCongestionWindow }

/-- `SetMaxDatagramSize`: the Go code panics on a size decrease, modelled as
`none`; otherwise the size is updated and a window sitting exactly at the old
minimum is rescaled to the new minimum. -/
def SetMaxDatagramSize (p : PragueSender) (maxDatagramSize : Int) :
    Option PragueSender :=
  if maxDatagramSize < p.maxDatagramSize then none
  else
    let cwndIsMinCwnd := p.congestionWindow = p.minCongestionWindow
    let p1 := { p with maxDatagramSize := maxDatagramSize }
    some (if cwndIsMinCwnd then { p1 with congestionWindow := p1.minCongestionWindow } else p1)

/-- `updateAlpha`: EWMA update of the ECN marking fraction, with the
bootstrap to 1.0 on the first positive sample and the final clamp to [0,1]. -/
def updateAlpha (p : PragueSender) : PragueSender :=
  if p.totalAckedBytes = 0 then p
  else
    let markingFraction : ℚ := (p.ecnMarkedBytes : ℚ) / (p.totalAckedBytes : ℚ)
    let alpha1 : ℚ :=
      if p.alpha = 0 ∧ 0 < markingFraction then 1
      else (1 - p.alphaGain) * p.alpha + p.alphaGain * markingFraction
    let alpha2 : ℚ := if alpha1 < 0 then 0 else alpha1
    let alpha3 : ℚ := if 1 < alpha2 then 1 else alpha2
    { p with alpha := alpha3 }

/-- `applyECNCongestionResponse`: multiplicative decrease driven by alpha,
with the fractional-carry bookkeeping exactly as in the source. -/
def applyECNCongestionResponse (p : PragueSender) : PragueSender :=
  if p.alpha ≤ 0 then p
  else
    let reductionFactor : ℚ := 1 - p.alpha / 2
    let newCwnd0 : ℚ := (p.congestionWindow : ℚ) * reductionFactor
    let carry0 : ℚ := p.cwndCarry + ((p.congestionWindow : ℚ) - newCwnd0)
    let step : ℚ × ℚ :=
      if 1 ≤ carry0 then
        let cwndReduction : Int := goTrunc carry0
        (newCwnd0 - (cwndReduction : ℚ), carry0 - (cwndReduction : ℚ))
      else (newCwnd0, carry0)
    let p1 :=
      { p with
        cwndCarry := step.2
        congestionWindow := goTrunc (max step.1 ((p.minCongestionWindow : ℚ))) }
    if p1.inSlowStart then { p1 with inSlowStart := false } else p1

/-- `OnECNFeedback`: only in L4S mode; accumulates the CE-marked bytes and,
when acked bytes have been collected, updates alpha, applies the ECN
congestion response, and resets the per-sample accumulators. -/
def OnECNFeedback (p : PragueSender) (ecnMarkedBytes : Int) : PragueSender :=
  if ¬p.l4sEnabled then p
  else
    let p1 := { p with ecnMarkedBytes := p.ecnMarkedBytes + ecnMarkedBytes }
    if 0 < p1.totalAckedBytes then
      let p2 := applyECNCongestionResponse (updateAlpha p1)
      { p2 with ecnMarkedBytes := 0, totalAckedBytes := 0 }
    else p1

/-! ### Operation sequences

An inductive alphabet of the sender operations, used to state trace
properties (cwnd floor, slow-start monotonicity).  `opValid` captures the
implicit caller obligations: byte-count arguments are non-negative and the
maximum datagram size never decreases (the Go code panics otherwise). -/

/-- One invocation of a sender-contract operation. -/
inductive SenderOp where
  | packetSent (bytesInFlight packetNumber bytes : Int) (isRetransmittable : Bool)
  | packetAcked (packetNumber ackedBytes priorInFlight : Int)
  | congestionEvent (packetNumber lostBytes priorInFlight : Int)
  | retransmissionTimeout (packetsRetransmitted : Bool)
  | ecnFeedback (ecnMarkedBytes : Int)
  | setMaxDatagramSize (size : Int)
  | maybeExitSlowStart
deriving DecidableEq

/-- Apply one operation to the sender state.  A datagram-size decrease is a
Go panic (`SetMaxDatagramSize` returns `none`); a valid trace never takes
that branch. -/
def applyOp (p : PragueSender) : SenderOp → PragueSender
  | .packetSent b1 pn b r => OnPacketSent p b1 pn b r
  | .packetAcked pn ab pif => OnPacketAcked p pn ab pif
  | .congestionEvent pn lb pif => OnCongestionEvent p pn lb pif
  | .retransmissionTimeout r => OnRetransmissionTimeout p r
  | .ecnFeedback ce => OnECNFeedback p ce
  | .setMaxDatagramSize s => (SetMaxDatagramSize p s).getD p
  | .maybeExitSlowStart => MaybeExitSlowStart p

/-- Caller obligations for one operation in state `p`. -/
def opValid (p : PragueSender) : SenderOp → Bool
  | .packetSent _ _ b _ => decide (0 ≤ b)
  | .packetAcked _ ab _ => decide (0 ≤ ab)
  | .congestionEvent _ lb _ => decide (0 ≤ lb)
  | .retransmissionTimeout _ => true
  | .ecnFeedback ce => decide (0 ≤ ce)
  | .setMaxDatagramSize s => decide (p.maxDatagramSize ≤ s)
  | .maybeExitSlowStart => true

/-- Run a list of operations from a state. -/
def run (p : PragueSender) : List SenderOp → PragueSender
  | [] => p
  | op :: ops => run (applyOp p op) ops

/-- All operations of the trace satisfy their caller obligations, each in
the state it is applied to. -/
def runValid (p : PragueSender) : List SenderOp → Bool
  | [] => true
  | op :: ops => opValid p op && runValid (applyOp p op) ops

/-- Whether an operation is a `setMaxDatagramSize` call. -/
def SenderOp.isSetMss : SenderOp → Bool
  | .setMaxDatagramSize _ => true
  | _ => false

/-! ### Helper lemmas about `goTrunc` -/

theorem goTrunc_intCast (n : Int) : goTrunc ((n : ℚ)) = n := by
  unfold goTrunc
  split <;> simp

theorem goTrunc_eq_floor {x : ℚ} (hx : 0 ≤ x) : goTrunc x = ⌊x⌋ := if_pos hx

theorem goTrunc_nonneg {x : ℚ} (hx : 0 ≤ x) : 0 ≤ goTrunc x := by
  rw [goTrunc_eq_floor hx]
  exact Int.floor_nonneg.2 hx

theorem le_goTrunc {n : Int} {x : ℚ} (h : (n : ℚ) ≤ x) : n ≤ goTrunc x := by
  unfold goTrunc
  split
  · exact Int.le_floor.2 h
  · exact_mod_cast h.trans (Int.le_ceil x)

theorem sub_goTrunc_nonneg {x : ℚ} (hx : 0 ≤ x) : 0 ≤ x - (goTrunc x : ℚ) := by
  rw [goTrunc_eq_floor hx]
  have := Int.floor_le x
  linarith

/-! ### The reachable-state invariant used for the cwnd floor -/

/-- Invariant maintained by every operation except `setMaxDatagramSize`:
alpha stays in [0,1], the datagram size is positive, the congestion window
never drops below the minimum window, and the fractional carry is
non-negative. -/
def Inv (p : PragueSender) : Prop :=
  0 ≤ p.alpha ∧ p.alpha ≤ 1 ∧ 0 < p.maxDatagramSize ∧
    p.minCongestionWindow ≤ p.congestionWindow ∧ 0 ≤ p.cwndCarry

theorem inv_newPragueSender {m : Int} (hm : 0 < m) (l4s : Bool) :
    Inv (newPragueSender m l4s) := by
  refine ⟨?_, ?_, hm, ?_, ?_⟩ <;>
    simp only [newPragueSender, PragueSender.minCongestionWindow, pragueMinCwnd,
      pragueInitialCwnd] <;>
    nlinarith

theorem inv_MaybeExitSlowStart {p : PragueSender} (h : Inv p) :
    Inv (MaybeExitSlowStart p) := by
  unfold MaybeExitSlowStart
  split <;> simpa [Inv, PragueSender.minCongestionWindow] using h

theorem inv_OnPacketSent {p : PragueSender} (h : Inv p) (b1 pn b : Int) (r : Bool) :
    Inv (OnPacketSent p b1 pn b r) := by
  unfold OnPacketSent
  split
  · exact h
  · split <;> simpa [Inv, PragueSender.minCongestionWindow] using h

theorem cwnd_pos_of_inv {p : PragueSender} (h : Inv p) : 0 < p.congestionWindow := by
  obtain ⟨-, -, hm, hcw, -⟩ := h
  simp only [PragueSender.minCongestionWindow, pragueMinCwnd] at hcw
  nlinarith

theorem inv_pragueAdditiveIncrease {p : PragueSender} (h : Inv p) {ab : Int}
    (hab : 0 ≤ ab) : Inv (pragueAdditiveIncrease p ab) := by
  have hcwpos := cwnd_pos_of_inv h
  obtain ⟨h0, h1, hm, hcw, hc⟩ := h
  simp only [pragueAdditiveIncrease]
  split
  · exact ⟨h0, h1, hm, hcw, hc⟩
  · refine ⟨h0, h1, hm, ?_, hc⟩
    simp only [Inv, PragueSender.minCongestionWindow] at hcw ⊢
    have hunm : (0 : Int) ≤
        (if p.l4sEnabled = true ∧ 0 < p.alpha then goTrunc ((ab : ℚ) * (1 - p.alpha))
         else ab) := by
      split
      · exact goTrunc_nonneg (mul_nonneg (by exact_mod_cast hab) (by linarith))
      · exact hab
    have hinc : (0 : ℚ) ≤ (p.maxDatagramSize : ℚ) *
        ((if p.l4sEnabled = true ∧ 0 < p.alpha then goTrunc ((ab : ℚ) * (1 - p.alpha))
          else ab : Int) : ℚ) / (p.congestionWindow : ℚ) := by
      apply div_nonneg
      · exact mul_nonneg (by exact_mod_cast hm.le) (by exact_mod_cast hunm)
      · exact_mod_cast hcwpos.le
    have := goTrunc_nonneg hinc
    omega

/-- `Inv` only looks at `alpha`, `maxDatagramSize`, `congestionWindow` and
`cwndCarry`; it transfers along updates that keep the first two and the
carry and do not shrink the window. -/
theorem inv_of_fields {p q : PragueSender} (h : Inv p)
    (ha : q.alpha = p.alpha) (hm2 : q.maxDatagramSize = p.maxDatagramSize)
    (hw : p.congestionWindow ≤ q.congestionWindow)
    (hcar : q.cwndCarry = p.cwndCarry) : Inv q := by
  obtain ⟨h0, h1, hm, hcw, hc⟩ := h
  refine ⟨?_, ?_, ?_, ?_, ?_⟩
  · rw [ha]; exact h0
  · rw [ha]; exact h1
  · rw [hm2]; exact hm
  · simp only [PragueSender.minCongestionWindow, hm2]
    exact le_trans (by simpa [PragueSender.minCongestionWindow] using hcw) hw
  · rw [hcar]; exact hc

theorem inv_OnPacketAcked {p : PragueSender} (h : Inv p) {number ab pif : Int}
    (hab : 0 ≤ ab) : Inv (OnPacketAcked p number ab pif) := by
  simp only [OnPacketAcked]
  split_ifs
  · exact inv_of_fields h rfl rfl le_rfl rfl
  · refine inv_MaybeExitSlowStart ?_
    exact inv_of_fields h rfl rfl (le_add_of_nonneg_right hab) rfl
  · refine inv_pragueAdditiveIncrease ?_ hab
    exact inv_of_fields h rfl rfl le_rfl rfl
  · exact inv_of_fields h rfl rfl le_rfl rfl
  · refine inv_MaybeExitSlowStart ?_
    exact inv_of_fields h rfl rfl (le_add_of_nonneg_right hab) rfl
  · refine inv_pragueAdditiveIncrease ?_ hab
    exact inv_of_fields h rfl rfl le_rfl rfl

theorem inv_OnCongestionEvent {p : PragueSender} (h : Inv p) (n lb pif : Int) :
    Inv (OnCongestionEvent p n lb pif) := by
  obtain ⟨h0, h1, hm, hcw, hc⟩ := h
  simp only [OnCongestionEvent]
  split_ifs
  · exact ⟨h0, h1, hm, hcw, hc⟩
  · exact ⟨h0, h1, hm, le_goTrunc (le_max_left _ _), hc⟩

theorem inv_OnRetransmissionTimeout {p : PragueSender} (h : Inv p) (r : Bool) :
    Inv (OnRetransmissionTimeout p r) := by
  obtain ⟨h0, h1, hm, hcw, hc⟩ := h
  exact ⟨h0, h1, hm, le_rfl, hc⟩

/-- The clamp at the end of `updateAlpha` pins any value into `[0, 1]`. -/
theorem clamp01_mem (x : ℚ) :
    0 ≤ (if 1 < (if x < 0 then 0 else x) then 1 else if x < 0 then 0 else x) ∧
      (if 1 < (if x < 0 then 0 else x) then 1 else if x < 0 then 0 else x) ≤ 1 := by
  rcases lt_or_le x 0 with hx | hx
  · simp only [if_pos hx]
    norm_num
  · simp only [if_neg (not_lt.2 hx)]
    rcases lt_or_le 1 x with h1 | h1
    · simp only [if_pos h1]
      norm_num
    · simp only [if_neg (not_lt.2 h1)]
      exact ⟨hx, h1⟩

theorem inv_updateAlpha {p : PragueSender} (h : Inv p) : Inv (updateAlpha p) := by
  obtain ⟨h0, h1, hm, hcw, hc⟩ := h
  simp only [updateAlpha]
  rcases eq_or_ne p.totalAckedBytes 0 with ht | ht
  · rw [if_pos ht]; exact ⟨h0, h1, hm, hcw, hc⟩
  · rw [if_neg ht]
    exact ⟨(clamp01_mem _).1, (clamp01_mem _).2, hm, hcw, hc⟩

theorem inv_applyECNCongestionResponse {p : PragueSender} (h : Inv p) :
    Inv (applyECNCongestionResponse p) := by
  have hcwpos := cwnd_pos_of_inv h
  obtain ⟨h0, h1, hm, hcw, hc⟩ := h
  simp only [applyECNCongestionResponse]
  rcases le_or_lt p.alpha 0 with ha | ha
  · rw [if_pos ha]; exact ⟨h0, h1, hm, hcw, hc⟩
  · rw [if_neg (not_le.2 ha)]
    have hcarry0 : (0 : ℚ) ≤ p.cwndCarry +
        ((p.congestionWindow : ℚ) - (p.congestionWindow : ℚ) * (1 - p.alpha / 2)) := by
      have hq : (0 : ℚ) ≤ (p.congestionWindow : ℚ) := by exact_mod_cast hcwpos.le
      nlinarith [hq, ha.le, hc]
    split_ifs with hss hcar hcar
    all_goals refine ⟨h0, h1, hm, le_goTrunc (le_max_right _ _), ?_⟩
    all_goals first
      | exact sub_goTrunc_nonneg hcarry0
      | exact hcarry0

theorem inv_OnECNFeedback {p : PragueSender} (h : Inv p) (ce : Int) :
    Inv (OnECNFeedback p ce) := by
  rcases Bool.eq_false_or_eq_true p.l4sEnabled with hl | hl
  case inr =>
    simp only [OnECNFeedback, hl]
    simpa using h
  case inl =>
    simp only [OnECNFeedback]
    rw [if_neg (by simp [hl])]
    have hp1 : Inv { p with ecnMarkedBytes := p.ecnMarkedBytes + ce } :=
      inv_of_fields h rfl rfl le_rfl rfl
    rcases lt_or_le 0 p.totalAckedBytes with ht | ht
    · rw [if_pos (by simpa using ht)]
      have hp2 := inv_applyECNCongestionResponse (inv_updateAlpha hp1)
      exact inv_of_fields hp2 rfl rfl le_rfl rfl
    · rw [if_neg (by simpa using not_lt.2 ht)]
      exact hp1

theorem inv_applyOp {p : PragueSender} (h : Inv p) {op : SenderOp}
    (hv : opValid p op = true) (hns : op.isSetMss = false) : Inv (applyOp p op) := by
  cases op with
  | packetSent b1 pn b r => exact inv_OnPacketSent h b1 pn b r
  | packetAcked pn ab pif =>
      exact @inv_OnPacketAcked p h pn ab pif (by simpa [opValid] using hv)
  | congestionEvent pn lb pif => exact inv_OnCongestionEvent h pn lb pif
  | retransmissionTimeout r => exact inv_OnRetransmissionTimeout h r
  | ecnFeedback ce => exact inv_OnECNFeedback h ce
  | setMaxDatagramSize s => simp [SenderOp.isSetMss] at hns
  | maybeExitSlowStart => exact inv_MaybeExitSlowStart h

theorem inv_run : ∀ (ops : List SenderOp) (p : PragueSender), Inv p →
    runValid p ops = true → (∀ op ∈ ops, op.isSetMss = false) → Inv (run p ops)
  | [], p, h, _, _ => h
  | op :: ops, p, h, hv, hns => by
      simp only [runValid, Bool.and_eq_true] at hv
      exact inv_run ops _ (inv_applyOp h hv.1 (hns op (List.mem_cons_self _ _))) hv.2
        (fun o ho => hns o (List.mem_cons_of_mem _ ho))

/-! ### Projection lemmas: how each operation treats the two mode flags -/

theorem pragueAdditiveIncrease_inSlowStart (p : PragueSender) (ab : Int) :
    (pragueAdditiveIncrease p ab).inSlowStart = p.inSlowStart := by
  simp only [pragueAdditiveIncrease]
  split_ifs <;> rfl

theorem updateAlpha_inSlowStart (p : PragueSender) :
    (updateAlpha p).inSlowStart = p.inSlowStart := by
  simp only [updateAlpha]
  split_ifs <;> rfl

theorem MaybeExitSlowStart_mono {p : PragueSender} :
    (MaybeExitSlowStart p).inSlowStart = true → p.inSlowStart = true := by
  simp only [MaybeExitSlowStart]
  split_ifs <;> simp

theorem OnPacketSent_mono {p : PragueSender} {b1 pn b : Int} {r : Bool} :
    (OnPacketSent p b1 pn b r).inSlowStart = true → p.inSlowStart = true := by
  simp only [OnPacketSent]
  split_ifs <;> simp

theorem OnPacketAcked_mono {p : PragueSender} {n ab pif : Int} :
    (OnPacketAcked p n ab pif).inSlowStart = true → p.inSlowStart = true := by
  simp only [OnPacketAcked]
  split_ifs with h1 h2 h3
  · simp
  · intro h
    have := MaybeExitSlowStart_mono h
    simpa using this
  · rw [pragueAdditiveIncrease_inSlowStart]
    simp
  · simp
  · intro h
    have := MaybeExitSlowStart_mono h
    simpa using this
  · rw [pragueAdditiveIncrease_inSlowStart]
    simp

theorem OnCongestionEvent_mono {p : PragueSender} {n lb pif : Int} :
    (OnCongestionEvent p n lb pif).inSlowStart = true → p.inSlowStart = true := by
  simp only [OnCongestionEvent]
  split_ifs <;> simp

theorem applyECNCongestionResponse_mono {p : PragueSender} :
    (applyECNCongestionResponse p).inSlowStart = true → p.inSlowStart = true := by
  simp only [applyECNCongestionResponse]
  split_ifs <;> simp

theorem OnECNFeedback_mono {p : PragueSender} {ce : Int} :
    (OnECNFeedback p ce).inSlowStart = true → p.inSlowStart = true := by
  simp only [OnECNFeedback]
  split_ifs
  · intro h
    have h0 : (applyECNCongestionResponse (updateAlpha
        { p with ecnMarkedBytes := p.ecnMarkedBytes + ce })).inSlowStart = true := h
    have h2 := applyECNCongestionResponse_mono h0
    rw [updateAlpha_inSlowStart] at h2
    exact h2
  · simp
  · simp

theorem SetMaxDatagramSize_mono {p : PragueSender} {s : Int} :
    ((SetMaxDatagramSize p s).getD p).inSlowStart = true → p.inSlowStart = true := by
  simp only [SetMaxDatagramSize]
  split_ifs <;> simp

theorem OnPacketAcked_inRecovery (p : PragueSender) (n ab pif : Int) :
    (OnPacketAcked p n ab pif).inRecovery = p.inRecovery := by
  simp only [OnPacketAcked, MaybeExitSlowStart, pragueAdditiveIncrease]
  split_ifs <;> rfl

/-! ### The ECN-mode selector and the configuration validator -/

/-- `protocol.CongestionControlAlgorithm`; `rfc9002` is the zero (unset)
value — the spec's default Classic algorithm (§6.4). -/
inductive CongestionControlAlgorithm where
  | rfc9002
  | prague
deriving DecidableEq

/-- The ECN codepoint chosen for an outgoing packet (spec §4.3 uses the
three values Not-ECT, ECT(0) and ECT(1)). -/
inductive ECN where
  | notEct
  | ect0
  | ect1
deriving DecidableEq

/-- Modelled from the spec: the implementation of the per-packet ECN-mode
selector (the sent-packet handler's `ECNMode` method) is not among the
source files — only its documentation and tests are.  Spec §4.3: for a
short-header packet with ECN usable, ECT(1) when L4S is enabled with the
Prague algorithm and ECT(0) otherwise; Not-ECT when ECN is not usable and
for long-header packets. -/
def ECNMode (ecnEnabled enableL4S : Bool)
    (ccAlgorithm : CongestionControlAlgorithm) (isShortHeaderPacket : Bool) : ECN :=
  if ¬isShortHeaderPacket then ECN.notEct
  else if ¬ecnEnabled then ECN.notEct
  else if enableL4S ∧ ccAlgorithm = CongestionControlAlgorithm.prague then ECN.ect1
  else ECN.ect0

/-- The configuration fields relevant to L4S validation
(`quic.Config` in the configuration example). -/
structure Config where
  enableL4S : Bool
  congestionControlAlgorithm : CongestionControlAlgorithm
deriving DecidableEq

/-- The single L4S validation error kind ("L4S can only be enabled when
using Prague congestion control algorithm"). -/
inductive ConfigError where
  | l4sRequiresPrague
deriving DecidableEq

/-- `validateConfigExample`: a nil config passes; otherwise fail exactly
when L4S is enabled with a non-Prague algorithm. -/
def validateConfigExample : Option Config → Option ConfigError
  | none => none
  | some c =>
      if c.enableL4S = true ∧ c.congestionControlAlgorithm ≠ CongestionControlAlgorithm.prague
      then some ConfigError.l4sRequiresPrague
      else none

/-- `populateConfigExample`: a nil config is replaced by the zero config;
the algorithm defaults to RFC 9002, is forced to Prague when L4S is
enabled, and is kept when already Prague. -/
def populateConfigExample (config : Option Config) : Config :=
  let c := config.getD
    { enableL4S := false, congestionControlAlgorithm := CongestionControlAlgorithm.rfc9002 }
  let algorithm :=
    if c.enableL4S = true then CongestionControlAlgorithm.prague
    else if c.congestionControlAlgorithm = CongestionControlAlgorithm.prague then
      c.congestionControlAlgorithm
    else CongestionControlAlgorithm.rfc9002
  { enableL4S := c.enableL4S, congestionControlAlgorithm := algorithm }

/-! ### Claim theorems -/

/-- C5: for a sender with `enable_l4s = false`, every call of
`on_ecn_feedback(x)` leaves the entire sender state unchanged — in
particular alpha and cwnd keep their prior values. -/
theorem C5_no_ecn_response_without_l4s (p : PragueSender) (x : Int)
    (h : p.l4sEnabled = false) : OnECNFeedback p x = p := by
  simp [OnECNFeedback, h]

/-- Witness for C5 at a freshly constructed non-L4S sender. -/
theorem C5_no_ecn_response_without_l4s_witness :
    OnECNFeedback (newPragueSender 1200 false) 7 = newPragueSender 1200 false :=
  C5_no_ecn_response_without_l4s (newPragueSender 1200 false) 7 rfl

theorem pragueAdditiveIncrease_at_cap {p : PragueSender} {ab : Int}
    (h : p.initialMaxCongestionWindow ≤ p.congestionWindow) :
    pragueAdditiveIncrease p ab = p := by
  simp only [pragueAdditiveIncrease]
  rw [if_pos h]

theorem pragueAdditiveIncrease_cwnd_at_cap {p : PragueSender} {ab : Int}
    (h : p.initialMaxCongestionWindow ≤ p.congestionWindow) :
    (pragueAdditiveIncrease p ab).congestionWindow = p.congestionWindow := by
  rw [pragueAdditiveIncrease_at_cap h]

/-- C6: `on_congestion_event(pn, lost_bytes, prior_in_flight)` leaves the
state unchanged when `pn ≤ largest_sent_at_last_cutback` (and a second such
call equals one); otherwise it sets `ssthresh := ⌊cwnd × 0.5⌋`,
`cwnd := max(min_cwnd, ssthresh)`, exits slow start, enters recovery, and
records `largest_sent` as the cutback point. -/
theorem C6_loss_response (p : PragueSender) (n lb pif : Int) :
    (n ≤ p.largestSentAtLastCutback → OnCongestionEvent p n lb pif = p) ∧
    (0 ≤ p.congestionWindow → p.largestSentAtLastCutback < n →
      ((OnCongestionEvent p n lb pif).slowStartThreshold
          = ⌊(p.congestionWindow : ℚ) * pragueBeta⌋ ∧
        (OnCongestionEvent p n lb pif).congestionWindow
          = max p.minCongestionWindow (OnCongestionEvent p n lb pif).slowStartThreshold ∧
        (OnCongestionEvent p n lb pif).inSlowStart = false ∧
        (OnCongestionEvent p n lb pif).inRecovery = true ∧
        (OnCongestionEvent p n lb pif).largestSentAtLastCutback
          = p.largestSentPacketNumber)) ∧
    (n ≤ p.largestSentAtLastCutback →
      OnCongestionEvent (OnCongestionEvent p n lb pif) n lb pif
        = OnCongestionEvent p n lb pif) := by
  have hdup : n ≤ p.largestSentAtLastCutback → OnCongestionEvent p n lb pif = p := by
    intro h
    simp [OnCongestionEvent, h]
  refine ⟨hdup, ?_, ?_⟩
  · intro hcw hlt
    have hne : ¬(n ≤ p.largestSentAtLastCutback) := not_le.2 hlt
    simp only [OnCongestionEvent, if_neg hne]
    refine ⟨?_, ?_, trivial, trivial, trivial⟩
    · show goTrunc ((p.congestionWindow : ℚ) * pragueBeta)
        = ⌊(p.congestionWindow : ℚ) * pragueBeta⌋
      refine goTrunc_eq_floor (mul_nonneg ?_ (by norm_num [pragueBeta]))
      exact_mod_cast hcw
    · show goTrunc (max ((p.minCongestionWindow : ℚ))
          ((goTrunc ((p.congestionWindow : ℚ) * pragueBeta) : Int) : ℚ))
        = max p.minCongestionWindow (goTrunc ((p.congestionWindow : ℚ) * pragueBeta))
      rw [← Int.cast_max, goTrunc_intCast]
  · intro h
    rw [hdup h]
    exact hdup h

/-- Witness for C6 at a fresh sender losing packet 5. -/
theorem C6_loss_response_witness :
    (OnCongestionEvent (newPragueSender 1200 true) 5 1200 0).inRecovery = true :=
  ((C6_loss_response (newPragueSender 1200 true) 5 1200 0).2.1
    (by norm_num [newPragueSender, pragueInitialCwnd])
    (by norm_num [newPragueSender])).2.2.2.1

/-- C7: the ECN-mode selector is a pure function of
`(ecn_enabled, enable_l4s, cc_algorithm, is_short_header)`: with ECN usable
it returns ECT(1) on short-header packets exactly when L4S is enabled with
the Prague algorithm and ECT(0) in every other short-header case, and
Not-ECT on long-header packets regardless of the other inputs. -/
theorem C7_ecn_mode_selector (e l : Bool) (c : CongestionControlAlgorithm) (s : Bool) :
    (s = true → e = true →
      ECNMode e l c s =
        (if l = true ∧ c = CongestionControlAlgorithm.prague
         then ECN.ect1 else ECN.ect0)) ∧
    (s = false → ECNMode e l c s = ECN.notEct) := by
  cases e <;> cases l <;> cases c <;> cases s <;> decide

/-- Witness for C7: short-header, ECN usable, L4S with Prague gives ECT(1). -/
theorem C7_ecn_mode_selector_witness :
    ECNMode true true CongestionControlAlgorithm.prague true =
      (if true = true ∧
          CongestionControlAlgorithm.prague = CongestionControlAlgorithm.prague
       then ECN.ect1 else ECN.ect0) :=
  (C7_ecn_mode_selector true true CongestionControlAlgorithm.prague true).1 rfl rfl

/-- The configuration with L4S enabled and the algorithm left unset (Go's
zero value, RFC 9002). -/
def l4sUnsetAlgorithmConfig : Config :=
  { enableL4S := true, congestionControlAlgorithm := CongestionControlAlgorithm.rfc9002 }

/-- C8: validation fails with the L4S-requires-Prague error kind exactly
when `enable_l4s` is set with a non-Prague algorithm, every other
combination passes, and defaulting with `enable_l4s` set and the algorithm
unset (the zero value, RFC 9002) selects Prague. -/
theorem C8_config_validation (c : Config) :
    (validateConfigExample (some c) = some ConfigError.l4sRequiresPrague ↔
      c.enableL4S = true ∧
        c.congestionControlAlgorithm ≠ CongestionControlAlgorithm.prague) ∧
    (validateConfigExample (some c) = none ↔
      ¬(c.enableL4S = true ∧
        c.congestionControlAlgorithm ≠ CongestionControlAlgorithm.prague)) ∧
    (populateConfigExample (some l4sUnsetAlgorithmConfig)).congestionControlAlgorithm
      = CongestionControlAlgorithm.prague := by
  obtain ⟨l, a⟩ := c
  cases l <;> cases a <;> decide

/-- Witness for C8: L4S with RFC 9002 yields the specific error kind. -/
theorem C8_config_validation_witness :
    validateConfigExample (some l4sUnsetAlgorithmConfig)
      = some ConfigError.l4sRequiresPrague :=
  (C8_config_validation l4sUnsetAlgorithmConfig).1.mpr (by decide)

/-- C9: outside slow start, with the window at or above the initial maximum
congestion window (`DefaultInitialMaxStreamData`), `on_packet_acked`
performs no additive increase and leaves cwnd unchanged. -/
theorem C9_additive_increase_cap (p : PragueSender) (n ab pif : Int)
    (hss : p.inSlowStart = false)
    (hinit : p.initialMaxCongestionWindow = DefaultInitialMaxStreamData)
    (hcw : DefaultInitialMaxStreamData ≤ p.congestionWindow) :
    (OnPacketAcked p n ab pif).congestionWindow = p.congestionWindow := by
  have hcap : p.initialMaxCongestionWindow ≤ p.congestionWindow := by
    rw [hinit]; exact hcw
  simp only [OnPacketAcked]
  split_ifs
  all_goals try rfl
  all_goals try exact pragueAdditiveIncrease_cwnd_at_cap hcap
  all_goals simp_all

/-- A sender in congestion avoidance whose window has reached the initial
maximum congestion window. -/
def cappedSender : PragueSender :=
  { newPragueSender 1200 true with inSlowStart := false, congestionWindow := 524288 }

/-- Witness for C9 at a capped-out sender. -/
theorem C9_additive_increase_cap_witness :
    (OnPacketAcked cappedSender 5 1200 0).congestionWindow
      = cappedSender.congestionWindow :=
  C9_additive_increase_cap cappedSender 5 1200 0 rfl rfl
    (by norm_num [cappedSender, newPragueSender, DefaultInitialMaxStreamData])

/-- C10: `in_slow_start` is monotone non-increasing: it is true at
construction, no operation ever sets it back to true, and after
`on_retransmission_timeout` the sender is not in slow start. -/
theorem C10_slow_start_never_reentered :
    (∀ (m : Int) (l4s : Bool), (newPragueSender m l4s).inSlowStart = true) ∧
    (∀ (p : PragueSender) (op : SenderOp),
      (applyOp p op).inSlowStart = true → p.inSlowStart = true) ∧
    (∀ (p : PragueSender) (r : Bool),
      (OnRetransmissionTimeout p r).inSlowStart = false) := by
  refine ⟨fun m l4s => rfl, ?_, fun p r => rfl⟩
  intro p op
  cases op with
  | packetSent b1 pn b r => exact @OnPacketSent_mono p b1 pn b r
  | packetAcked pn ab pif => exact @OnPacketAcked_mono p pn ab pif
  | congestionEvent pn lb pif => exact @OnCongestionEvent_mono p pn lb pif
  | retransmissionTimeout r =>
      intro h
      simp [applyOp, OnRetransmissionTimeout] at h
  | ecnFeedback ce => exact @OnECNFeedback_mono p ce
  | setMaxDatagramSize s => exact @SetMaxDatagramSize_mono p s
  | maybeExitSlowStart => exact MaybeExitSlowStart_mono

/-- Witness for C10: the monotonicity implication applied at a fresh sender
and a `maybe_exit_slow_start` call that does not fire. -/
theorem C10_slow_start_never_reentered_witness :
    (newPragueSender 1200 true).inSlowStart = true :=
  C10_slow_start_never_reentered.2.1 (newPragueSender 1200 true)
    SenderOp.maybeExitSlowStart
    (by norm_num [applyOp, MaybeExitSlowStart, newPragueSender, MaxByteCount,
      pragueInitialCwnd])

/-- The cold-start state of spec scenario 1: fresh L4S sender with
MSS 1200 (cwnd 38400), one RTT worth of acked bytes (12000) collected. -/
def coldStartState : PragueSender :=
  { newPragueSender 1200 true with totalAckedBytes := 12000 }

/-- C1 (evaluation at the failing input): in the cold-start scenario,
`on_ecn_feedback(2400)` bootstraps alpha to 1, but the congestion window
collapses to the minimum window 2400 — not to 19200 = ⌊38400 × (1 − α/2)⌋
as documented.  The carry bookkeeping adds the entire reduction
(not its fractional part) to `cwndCarry` and then subtracts it from the
new window a second time. -/
theorem C1_ecn_cold_start_evaluation :
    coldStartState.congestionWindow = 38400 ∧
    (OnECNFeedback coldStartState 2400).alpha = 1 ∧
    (OnECNFeedback coldStartState 2400).congestionWindow = 2400 ∧
    (OnECNFeedback coldStartState 2400).congestionWindow ≠ 19200 := by
  refine ⟨by norm_num [coldStartState, newPragueSender, pragueInitialCwnd], ?_, ?_, ?_⟩ <;>
    norm_num [OnECNFeedback, coldStartState, newPragueSender, updateAlpha,
      applyECNCongestionResponse, pragueAlphaGain, pragueMinCwnd, pragueInitialCwnd,
      goTrunc, PragueSender.minCongestionWindow]

/-- The state reached in spec scenario 3/4: send up to packet 200, then a
congestion event for packet 100 (recovery entered, cutback at 200). -/
def recoveryScenarioState : PragueSender :=
  OnCongestionEvent (OnPacketSent (newPragueSender 1200 true) 0 200 1200 true)
    100 1200 38400

/-- C2 counterexample: acking packet 201 > cutback 200 in recovery does not
clear `in_recovery`; the flag stays true, refuting the claimed
`in_recovery = false`. -/
theorem C2_recovery_exit_counterexample :
    recoveryScenarioState.inRecovery = true ∧
    recoveryScenarioState.largestSentAtLastCutback < 201 ∧
    (OnPacketAcked recoveryScenarioState 201 1200 0).inRecovery = true := by
  have h1 : recoveryScenarioState.inRecovery = true := by
    norm_num [recoveryScenarioState, OnCongestionEvent, OnPacketSent, newPragueSender]
  refine ⟨h1, ?_, ?_⟩
  · norm_num [recoveryScenarioState, OnCongestionEvent, OnPacketSent, newPragueSender]
  · rw [OnPacketAcked_inRecovery]
    exact h1

/-- `MaybeExitSlowStart` never changes the congestion window. -/
theorem MaybeExitSlowStart_cwnd (p : PragueSender) :
    (MaybeExitSlowStart p).congestionWindow = p.congestionWindow := by
  simp only [MaybeExitSlowStart]
  split_ifs <;> rfl

/-- The additive-increase step only reads the window, alpha, the L4S flag,
the datagram size and the cap. -/
theorem pragueAdditiveIncrease_cwnd_congr {p q : PragueSender} (ab : Int)
    (hw : q.congestionWindow = p.congestionWindow) (ha : q.alpha = p.alpha)
    (hl : q.l4sEnabled = p.l4sEnabled) (hm : q.maxDatagramSize = p.maxDatagramSize)
    (hi : q.initialMaxCongestionWindow = p.initialMaxCongestionWindow) :
    (pragueAdditiveIncrease q ab).congestionWindow
      = (pragueAdditiveIncrease p ab).congestionWindow := by
  simp only [pragueAdditiveIncrease, hw, ha, hl, hm, hi]
  split_ifs with hcap h2
  · exact hw
  · rfl
  · rfl

/-- C2 (amended): an ACK of a packet sent after the last cutback leaves
`in_recovery` unchanged at true — the implementation never clears the flag —
while the window hold ends: cwnd is updated by the normal slow-start or
additive-increase rule. -/
theorem C2_recovery_ack_behavior (p : PragueSender) (n ab pif : Int)
    (hrec : p.inRecovery = true) (hgt : p.largestSentAtLastCutback < n) :
    (OnPacketAcked p n ab pif).inRecovery = true ∧
    (OnPacketAcked p n ab pif).congestionWindow =
      (if p.inSlowStart = true then p.congestionWindow + ab
       else (pragueAdditiveIncrease p ab).congestionWindow) := by
  constructor
  · rw [OnPacketAcked_inRecovery]
    exact hrec
  · have hnle : ¬(n ≤ p.largestSentAtLastCutback) := not_le.2 hgt
    have hhold : ¬(p.inRecovery = true ∧ n ≤ p.largestSentAtLastCutback) :=
      fun h => hnle h.2
    simp only [OnPacketAcked]
    rcases lt_or_le p.largestAckedPacketNumber n with hA | hA
    · simp only [if_pos hA, if_neg hhold]
      by_cases hss : p.inSlowStart = true
      · rw [if_pos hss, if_pos hss, MaybeExitSlowStart_cwnd]
      · rw [if_neg hss, if_neg hss]
        exact pragueAdditiveIncrease_cwnd_congr ab rfl rfl rfl rfl rfl
    · simp only [if_neg (not_lt.2 hA), if_neg hhold]
      by_cases hss : p.inSlowStart = true
      · rw [if_pos hss, if_pos hss, MaybeExitSlowStart_cwnd]
      · rw [if_neg hss, if_neg hss]
        exact pragueAdditiveIncrease_cwnd_congr ab rfl rfl rfl rfl rfl

/-- Witness for C2 (amended) at the scenario-3/4 state. -/
theorem C2_recovery_ack_behavior_witness :
    (OnPacketAcked recoveryScenarioState 201 1200 0).inRecovery = true :=
  (C2_recovery_ack_behavior recoveryScenarioState 201 1200 0
    (by norm_num [recoveryScenarioState, OnCongestionEvent, OnPacketSent, newPragueSender])
    (by norm_num [recoveryScenarioState, OnCongestionEvent, OnPacketSent,
      newPragueSender])).1

/-- The trace refuting the unconditional cwnd floor: RTO collapse to the
minimum window (2400), one additive increase (cwnd 3000), then a datagram
size increase to 1600 (new minimum 3200). -/
def c3Ops : List SenderOp :=
  [SenderOp.retransmissionTimeout true, SenderOp.packetAcked 1 1200 0,
    SenderOp.setMaxDatagramSize 1600]

/-- C3 counterexample: a valid operation sequence (non-negative byte
arguments, non-decreasing datagram sizes) after which
`cwnd < 2 × max_datagram_size`. -/
theorem C3_cwnd_floor_counterexample :
    runValid (newPragueSender 1200 true) c3Ops = true ∧
    (run (newPragueSender 1200 true) c3Ops).congestionWindow
      < 2 * (run (newPragueSender 1200 true) c3Ops).maxDatagramSize := by
  constructor
  · norm_num [runValid, opValid, c3Ops, run, applyOp, OnRetransmissionTimeout,
      OnPacketAcked, pragueAdditiveIncrease, MaybeExitSlowStart, SetMaxDatagramSize,
      newPragueSender, goTrunc, PragueSender.minCongestionWindow, pragueMinCwnd,
      pragueInitialCwnd, InvalidPacketNumber, DefaultInitialMaxStreamData,
      MaxByteCount, Option.getD]
  · norm_num [runValid, opValid, c3Ops, run, applyOp, OnRetransmissionTimeout,
      OnPacketAcked, pragueAdditiveIncrease, MaybeExitSlowStart, SetMaxDatagramSize,
      newPragueSender, goTrunc, PragueSender.minCongestionWindow, pragueMinCwnd,
      pragueInitialCwnd, InvalidPacketNumber, DefaultInitialMaxStreamData,
      MaxByteCount, Option.getD]

/-- C3 (amended): over every valid operation sequence that contains no
`set_max_datagram_size` call, the invariant
`cwnd ≥ 2 × max_datagram_size` holds after every operation. -/
theorem C3_cwnd_floor_without_setMss (m : Int) (l4s : Bool) (ops : List SenderOp)
    (hm : 0 < m) (hv : runValid (newPragueSender m l4s) ops = true)
    (hns : ∀ op ∈ ops, op.isSetMss = false) :
    2 * (run (newPragueSender m l4s) ops).maxDatagramSize
      ≤ (run (newPragueSender m l4s) ops).congestionWindow := by
  obtain ⟨-, -, -, hcw, -⟩ :=
    inv_run ops (newPragueSender m l4s) (inv_newPragueSender hm l4s) hv hns
  simpa [PragueSender.minCongestionWindow, pragueMinCwnd] using hcw

/-- The witness trace for the amended C3: the counterexample trace without
its `set_max_datagram_size` call. -/
def c3WitnessOps : List SenderOp :=
  [SenderOp.retransmissionTimeout true, SenderOp.packetAcked 1 1200 0]

/-- Witness for C3 (amended). -/
theorem C3_cwnd_floor_without_setMss_witness :
    2 * (run (newPragueSender 1200 true) c3WitnessOps).maxDatagramSize
      ≤ (run (newPragueSender 1200 true) c3WitnessOps).congestionWindow :=
  C3_cwnd_floor_without_setMss 1200 true c3WitnessOps (by norm_num)
    (by decide) (by decide)

/-- The spec's scenario-2 state: alpha at 1.0 from the bootstrap, a fresh
sample of 12000 acked bytes with 1200 CE-marked (10% marking). -/
def ewmaSampleState : PragueSender :=
  { newPragueSender 1200 true with alpha := 1, totalAckedBytes := 12000, ecnMarkedBytes := 1200 }

/-- C4 counterexample: from alpha = 1.0 with a 10% marking sample the EWMA
update yields (1 − 1/16)·1 + (1/16)·0.1 = 151/160 = 0.94375, not the
0.95625 the claim states. -/
theorem C4_alpha_update_counterexample :
    (updateAlpha ewmaSampleState).alpha = 151 / 160 ∧
    (updateAlpha ewmaSampleState).alpha ≠ 0.95625 := by
  have h : (updateAlpha ewmaSampleState).alpha = 151 / 160 := by
    norm_num [updateAlpha, ewmaSampleState, newPragueSender, pragueAlphaGain]
  refine ⟨h, ?_⟩
  rw [h]
  norm_num

/-- C4 (amended): at every sample-window close (`total_bytes_sample > 0`)
the updated alpha lies in [0, 1]; with the sender's gain 1/16, a prior
alpha in [0, 1] and a sample with `0 ≤ ce ≤ total`, the update is exactly
the claimed rule — bootstrap to 1.0 when alpha was 0 and the fraction is
positive, EWMA `(1 − 1/16)·α + (1/16)·f` otherwise; in particular from
alpha = 1.0 with a 10% marking sample the new alpha is 0.94375. -/
theorem C4_alpha_update (p : PragueSender) (htot : 0 < p.totalAckedBytes) :
    (0 ≤ (updateAlpha p).alpha ∧ (updateAlpha p).alpha ≤ 1) ∧
    (p.alphaGain = pragueAlphaGain → 0 ≤ p.alpha → p.alpha ≤ 1 →
      0 ≤ p.ecnMarkedBytes → p.ecnMarkedBytes ≤ p.totalAckedBytes →
      (updateAlpha p).alpha =
        (if p.alpha = 0 ∧ 0 < ((p.ecnMarkedBytes : ℚ) / (p.totalAckedBytes : ℚ))
         then 1
         else (1 - 1 / 16) * p.alpha
           + (1 / 16) * ((p.ecnMarkedBytes : ℚ) / (p.totalAckedBytes : ℚ)))) ∧
    (updateAlpha ewmaSampleState).alpha = 0.94375 := by
  have hne : p.totalAckedBytes ≠ 0 := ne_of_gt htot
  refine ⟨?_, ?_, ?_⟩
  · simp only [updateAlpha, if_neg hne]
    exact clamp01_mem _
  · intro hg h0 h1 hce hle
    simp only [updateAlpha, if_neg hne, hg]
    have hf0 : 0 ≤ (p.ecnMarkedBytes : ℚ) / (p.totalAckedBytes : ℚ) :=
      div_nonneg (by exact_mod_cast hce) (by exact_mod_cast htot.le)
    have hf1 : (p.ecnMarkedBytes : ℚ) / (p.totalAckedBytes : ℚ) ≤ 1 := by
      rw [div_le_one (by exact_mod_cast htot)]
      exact_mod_cast hle
    by_cases hb : p.alpha = 0 ∧ 0 < (p.ecnMarkedBytes : ℚ) / (p.totalAckedBytes : ℚ)
    · rw [if_pos hb, if_pos hb]
      norm_num
    · rw [if_neg hb, if_neg hb]
      have he0 : (0 : ℚ) ≤ (1 - pragueAlphaGain) * p.alpha
          + pragueAlphaGain * ((p.ecnMarkedBytes : ℚ) / (p.totalAckedBytes : ℚ)) := by
        show (0 : ℚ) ≤ (1 - 1 / 16) * p.alpha
          + 1 / 16 * ((p.ecnMarkedBytes : ℚ) / (p.totalAckedBytes : ℚ))
        linarith
      have he1 : (1 - pragueAlphaGain) * p.alpha
          + pragueAlphaGain * ((p.ecnMarkedBytes : ℚ) / (p.totalAckedBytes : ℚ)) ≤ 1 := by
        show (1 - 1 / 16) * p.alpha
          + 1 / 16 * ((p.ecnMarkedBytes : ℚ) / (p.totalAckedBytes : ℚ)) ≤ 1
        linarith
      rw [if_neg (not_lt.2 he0), if_neg (not_lt.2 he1)]
      norm_num [pragueAlphaGain]
  · norm_num [updateAlpha, ewmaSampleState, newPragueSender, pragueAlphaGain]

/-- Witness for C4 (amended) at the scenario-2 state. -/
theorem C4_alpha_update_witness :
    0 ≤ (updateAlpha ewmaSampleState).alpha ∧ (updateAlpha ewmaSampleState).alpha ≤ 1 :=
  (C4_alpha_update ewmaSampleState
    (by norm_num [ewmaSampleState, newPragueSender])).1

end PragueCC
